import Mathlib

/-!
Shallow embedding of the playback-queue and state-synchronization core of
the tidal-tui music player (src/tui.py, src/main.py).

The controller state consists of the fields of the MusicPlayerTUI
constructor that the playback core mutates: `is_paused`, `is_playing`,
`queue`, `history`, `current_song_data`, together with the status-bar
text and the progress-bar position/total that the code updates.  The
external catalog resolver (the HTTP fetch, base64 decode and JSON parse
inside `main.play_song`) is modelled as a function from a song id to
`Except String String`: `.ok url` when a stream URL is obtained,
`.error e` when any step raises (the exception text `e` is what
`play_selected_item` puts on the status bar).  Instructions sent to the
mpv engine (`player.play`, `player.stop`, assignment to `player.pause`)
are collected as an emitted command list.
-/

namespace TidalTui

/-- A catalog record as held in `item_data` dictionaries: the id, the
display title and the record kind, which mirrors the `item_type` string
("song", "playlist" or "artist") that every widget attaches to the
record it was built from. -/
structure Item where
  id : String
  title : String
  kind : String
  deriving DecidableEq, Repr

/-- An instruction the controller issues to the mpv engine. -/
inductive PlayerCmd where
  | play (url : String)
  | stop
  | pauseSet (b : Bool)
  deriving DecidableEq, Repr

/-- The mutable controller state of MusicPlayerTUI. -/
structure AppState where
  is_paused : Bool
  is_playing : Bool
  queue : List Item
  history : List Item
  current_song_data : Option Item
  status_bar : String
  progress : Option ℚ
  duration : Option ℚ
  deriving DecidableEq, Repr

/-- The state after the constructor and `compose` (the status-bar widget
is created with the text "Ready."). -/
def initState : AppState :=
  { is_paused := false
    is_playing := false
    queue := []
    history := []
    current_song_data := none
    status_bar := "Ready."
    progress := none
    duration := none }

/-- The external resolver: the manifest fetch and decode of
`main.play_song`, yielding a stream URL or the text of the exception it
raises. -/
def Resolver : Type := String → Except String String

/-- The three-valued playback state of the spec, derived from the two
flags exactly as `update_playback_status` reads them: `is_playing` false
means nothing is loaded (Idle); otherwise `is_paused` distinguishes
Paused from Playing. -/
inductive PlaybackState where
  | Idle
  | Playing
  | Paused
  deriving DecidableEq, Repr

def playbackState (s : AppState) : PlaybackState :=
  if s.is_playing then (if s.is_paused then .Paused else .Playing) else .Idle

/-- The status-bar text computed by `update_playback_status` from the
flags and the current song title. -/
def statusText (s : AppState) : String :=
  if s.is_playing then
    let song_title := match s.current_song_data with
      | some c => c.title
      | none => "Unknown"
    if s.is_paused then "Paused - Playing: " ++ song_title
    else "Playing: " ++ song_title
  else "Ready."

def update_playback_status (s : AppState) : AppState :=
  { s with status_bar := statusText s }

/-- `MusicPlayerTUI.play_selected_item`: for a song, store the record as
the current song and attempt `play_song`; a raised exception is caught
and shown on the status bar (the assignment to `current_song_data` has
already happened).  Any other item type does nothing. -/
def play_selected_item (R : Resolver) (s : AppState) (item_id : String)
    (item_type : String) (item_data : Option Item) :
    AppState × List PlayerCmd :=
  if item_type = "song" then
    let s1 := { s with current_song_data := item_data }
    match R item_id with
    | .ok url => (s1, [PlayerCmd.play url])
    | .error e => ({ s1 with status_bar := "Error: " ++ e }, [])
  else (s, [])

/-- `MusicPlayerTUI.action_stop_playback`: stop the player and report on
the status bar. -/
def action_stop_playback (s : AppState) : AppState × List PlayerCmd :=
  ({ s with status_bar := "Playback stopped." }, [PlayerCmd.stop])

/-- `MusicPlayerTUI.action_next_song`: append the current song (if any)
to the history; then pop the queue head and play it, or, when the queue
is empty, clear the current song and stop playback. -/
def action_next_song (R : Resolver) (s : AppState) :
    AppState × List PlayerCmd :=
  let s1 := match s.current_song_data with
    | some c => { s with history := s.history ++ [c] }
    | none => s
  match s1.queue with
  | next_song :: rest =>
      play_selected_item R { s1 with queue := rest } next_song.id "song"
        (some next_song)
  | [] =>
      action_stop_playback { s1 with current_song_data := none }

/-- `MusicPlayerTUI.action_prev_song`: when the history is non-empty,
push the current song (if any) back to the queue head, pop the history
tail and play it; otherwise do nothing. -/
def action_prev_song (R : Resolver) (s : AppState) :
    AppState × List PlayerCmd :=
  match s.history.getLast? with
  | none => (s, [])
  | some prev_song =>
      let s1 := match s.current_song_data with
        | some c => { s with queue := c :: s.queue }
        | none => s
      let s2 := { s1 with history := s1.history.dropLast }
      play_selected_item R s2 prev_song.id "song" (some prev_song)

/-- `MusicPlayerTUI.action_toggle_pause`: while playing, flip the pause
property of the player (the local `is_paused` flag is only updated when
mpv reports the change back); otherwise report that nothing plays. -/
def action_toggle_pause (s : AppState) : AppState × List PlayerCmd :=
  if s.is_playing then (s, [PlayerCmd.pauseSet (!s.is_paused)])
  else ({ s with status_bar := "Nothing playing." }, [])

/-- Swap two positions of a list, as the simultaneous assignment in the
queue reorder actions does. -/
def listSwap (l : List Item) (i j : Nat) : List Item :=
  match l[i]?, l[j]? with
  | some a, some b => (l.set i b).set j a
  | _, _ => l

/-- `MusicPlayerTUI.on_result_click`: dispatch of a ResultClick message.
Every widget posts the message with the id of its `item_data` record and
with the `item_type` the record was built from, so the message is
modelled by the record itself plus the action string and the index (a
Python int, -1 when absent). -/
def on_result_click (R : Resolver) (s : AppState) (action : String)
    (item : Item) (index : Int) : AppState × List PlayerCmd :=
  if action = "play" then
    play_selected_item R s item.id item.kind (some item)
  else if action = "queue" then
    if item.kind = "song" then ({ s with queue := s.queue ++ [item] }, [])
    else (s, [])
  else if action = "play_next" then
    if item.kind = "song" then ({ s with queue := item :: s.queue }, [])
    else (s, [])
  else if action = "remove" then
    if 0 ≤ index ∧ index < (s.queue.length : Int) then
      ({ s with queue := s.queue.eraseIdx index.toNat }, [])
    else (s, [])
  else if action = "move_up" then
    if 0 < index ∧ index < (s.queue.length : Int) then
      ({ s with queue := listSwap s.queue index.toNat (index.toNat - 1) }, [])
    else (s, [])
  else if action = "move_down" then
    if 0 ≤ index ∧ index < (s.queue.length : Int) - 1 then
      ({ s with queue := listSwap s.queue index.toNat (index.toNat + 1) }, [])
    else (s, [])
  else (s, [])

/-- A property-change notification from the mpv engine, as observed by
`mpv_property_change`: `pause` and `idle-active` carry booleans,
`time-pos` and `duration` carry a possibly-null number. -/
inductive Notification where
  | pause (v : Bool)
  | idleActive (v : Bool)
  | timePos (v : Option ℚ)
  | duration (v : Option ℚ)
  deriving DecidableEq, Repr

/-- `MusicPlayerTUI.mpv_property_change`, as the sequential effect of
one notification: the property-specific handling (for `idle-active`
true while `is_playing`, the marshalled `action_next_song` runs first,
then the flag is overwritten with the negated value), followed by the
marshalled `update_playback_status`. -/
def mpv_property_change (R : Resolver) (n : Notification) (s : AppState) :
    AppState × List PlayerCmd :=
  match n with
  | .pause v =>
      (update_playback_status { s with is_paused := v }, [])
  | .idleActive v =>
      let r := if v && s.is_playing then action_next_song R s else (s, [])
      (update_playback_status { r.1 with is_playing := !v }, r.2)
  | .timePos v =>
      let s1 := match v with
        | some q => { s with progress := some q }
        | none => s
      (update_playback_status s1, [])
  | .duration v =>
      let s1 := match v with
        | some q => { s with duration := some q }
        | none => s
      (update_playback_status s1, [])

/-- An external event entering the controller: a ResultClick dispatch,
one of the key/button bindings, or an engine notification. -/
inductive Ev where
  | click (action : String) (item : Item) (index : Int)
  | next
  | prev
  | togglePause
  | stopPlayback
  | notify (n : Notification)

def step (R : Resolver) (s : AppState) : Ev → AppState × List PlayerCmd
  | .click a it i => on_result_click R s a it i
  | .next => action_next_song R s
  | .prev => action_prev_song R s
  | .togglePause => action_toggle_pause s
  | .stopPlayback => action_stop_playback s
  | .notify n => mpv_property_change R n s

def run (R : Resolver) (s : AppState) : List Ev → AppState
  | [] => s
  | e :: es => run R (step R s e).1 es

/-- A controller state reachable from startup under resolver `R`. -/
def Reachable (R : Resolver) (s : AppState) : Prop :=
  ∃ evs : List Ev, run R initState evs = s

/-- The invariant claimed by the spec: a current track is set exactly
when the playback state is Playing or Paused. -/
def CurrentInv (s : AppState) : Prop :=
  s.current_song_data ≠ none ↔
    (playbackState s = .Playing ∨ playbackState s = .Paused)

/-- A controller routine that `mpv_property_change` marshals into the UI
thread with `call_from_thread`. -/
inductive CtrlCall where
  | next_song
  | update_progress (v : ℚ)
  | set_duration (v : ℚ)
  | update_status
  deriving DecidableEq, Repr

/-- The mutations of controller state that the body of
`mpv_property_change` performs directly in the engine callback thread,
without `call_from_thread`: the plain assignments to `is_paused` and
`is_playing`. -/
def callback_direct_writes (n : Notification) (s : AppState) : AppState :=
  match n with
  | .pause v => { s with is_paused := v }
  | .idleActive v => { s with is_playing := !v }
  | .timePos _ => s
  | .duration _ => s

/-- The controller routines that the body of `mpv_property_change`
marshals through `call_from_thread` for one notification, in program
order (the advance trigger is guarded by the value and the local flag;
the status recomputation always follows). -/
def callback_marshaled_calls (n : Notification) (s : AppState) :
    List CtrlCall :=
  match n with
  | .pause _ => [CtrlCall.update_status]
  | .idleActive v =>
      (if v && s.is_playing then [CtrlCall.next_song] else [])
        ++ [CtrlCall.update_status]
  | .timePos v =>
      (match v with
       | some q => [CtrlCall.update_progress q]
       | none => []) ++ [CtrlCall.update_status]
  | .duration v =>
      (match v with
       | some q => [CtrlCall.set_duration q]
       | none => []) ++ [CtrlCall.update_status]

/-- No notification mutates queue, history or current track, and no
engine command is emitted: no automatic progression happens. -/
def NoAutoAdvance (R : Resolver) (n : Notification) (s : AppState) : Prop :=
  (mpv_property_change R n s).1.queue = s.queue ∧
  (mpv_property_change R n s).1.history = s.history ∧
  (mpv_property_change R n s).1.current_song_data = s.current_song_data ∧
  (mpv_property_change R n s).2 = []

/-- All tracks owned by the controller (queue, history, current) are
song records. -/
def AllSongs (s : AppState) : Prop :=
  (∀ x ∈ s.queue, x.kind = "song") ∧
  (∀ x ∈ s.history, x.kind = "song") ∧
  (∀ c, s.current_song_data = some c → c.kind = "song")

/-- A resolver for which every lookup succeeds. -/
def okResolver : Resolver := fun _ => Except.ok "http-stream-url"

/-- A resolver for which every lookup raises. -/
def failResolver : Resolver := fun _ => Except.error "ResolutionError"

def songA : Item := { id := "idA", title := "Song A", kind := "song" }

def songB : Item := { id := "idB", title := "Song B", kind := "song" }

def songC : Item := { id := "idC", title := "Song C", kind := "song" }

def playlistP : Item := { id := "idP", title := "Playlist P", kind := "playlist" }

/-- A state that is Playing with an empty queue. -/
def s3w : AppState :=
  { initState with is_playing := true, current_song_data := some songA }

/-- A state with a current song, one played song and one queued song. -/
def s4w : AppState :=
  { initState with
    history := [songA]
    queue := [songC]
    current_song_data := some songB }

/-- A state with play history but no current song. -/
def s5w : AppState := { initState with history := [songA] }

/-- A state with a three-element queue. -/
def s6w : AppState := { initState with queue := [songA, songB, songC] }

/-- A Playing state with a current song and a non-empty queue. -/
def s8w : AppState :=
  { initState with
    is_playing := true
    queue := [songB]
    current_song_data := some songA }

end TidalTui

namespace TidalTui

/-! ### Helper lemmas about the queue reorder primitive -/

/-- Swapping two positions preserves the length of the list. -/
theorem listSwap_length (l : List Item) (i j : Nat) :
    (listSwap l i j).length = l.length := by
  unfold listSwap
  cases hi : l[i]? <;> cases hj : l[j]? <;> simp

/-- Swapping two positions introduces no new elements. -/
theorem mem_of_mem_listSwap {l : List Item} {i j : Nat} {x : Item}
    (h : x ∈ listSwap l i j) : x ∈ l := by
  unfold listSwap at h
  cases hi : l[i]? with
  | none => rw [hi] at h; exact h
  | some a =>
    cases hj : l[j]? with
    | none => rw [hi, hj] at h; exact h
    | some b =>
      rw [hi, hj] at h
      rcases List.mem_or_eq_of_mem_set h with h1 | h1
      · rcases List.mem_or_eq_of_mem_set h1 with h2 | h2
        · exact h2
        · exact h2 ▸ List.getElem?_mem hj
      · exact h1 ▸ List.getElem?_mem hi

/-- Pointwise description of the swap for in-range indices. -/
theorem listSwap_getElem? (l : List Item) (i j k : Nat) (hi : i < l.length)
    (hj : j < l.length) :
    (listSwap l i j)[k]? =
      if k = j then l[i]? else if k = i then l[j]? else l[k]? := by
  unfold listSwap
  rw [List.getElem?_eq_getElem hi, List.getElem?_eq_getElem hj]
  by_cases hkj : k = j
  · subst hkj
    rw [if_pos rfl, List.getElem?_set_self (by simpa using hj)]
  · rw [if_neg hkj, List.getElem?_set_ne (fun h => hkj h.symm)]
    by_cases hki : k = i
    · subst hki
      rw [if_pos rfl, List.getElem?_set_self hi]
    · rw [if_neg hki, List.getElem?_set_ne (fun h => hki h.symm)]

/-! ### Helper lemmas about advance and rewind -/

/-- Advance never touches the playback flags, and appends the current
song, when present, to the history tail. -/
theorem next_song_fields (R : Resolver) (s : AppState) :
    (action_next_song R s).1.history = s.history ++ s.current_song_data.toList ∧
    (action_next_song R s).1.is_playing = s.is_playing ∧
    (action_next_song R s).1.is_paused = s.is_paused := by
  cases hc : s.current_song_data with
  | none =>
    cases hq : s.queue with
    | nil => simp [action_next_song, action_stop_playback, hc, hq]
    | cons n rest =>
      cases hr : R n.id <;>
        simp [action_next_song, play_selected_item, hc, hq, hr]
  | some c =>
    cases hq : s.queue with
    | nil => simp [action_next_song, action_stop_playback, hc, hq]
    | cons n rest =>
      cases hr : R n.id <;>
        simp [action_next_song, play_selected_item, hc, hq, hr]

/-- Advance on an empty queue clears the current song and stops. -/
theorem next_song_empty_queue (R : Resolver) (s : AppState)
    (hq : s.queue = []) :
    (action_next_song R s).1.current_song_data = none ∧
    (action_next_song R s).1.queue = [] ∧
    (action_next_song R s).2 = [PlayerCmd.stop] := by
  cases hc : s.current_song_data <;>
    simp [action_next_song, action_stop_playback, hc, hq]

/-- Advance on a non-empty queue makes the popped head current. -/
theorem next_song_cons_queue (R : Resolver) (s : AppState) (n : Item)
    (rest : List Item) (hq : s.queue = n :: rest) :
    (action_next_song R s).1.current_song_data = some n ∧
    (action_next_song R s).1.queue = rest := by
  cases hc : s.current_song_data <;> cases hr : R n.id <;>
    simp [action_next_song, play_selected_item, hc, hq, hr]

/-- Rewind on an empty history is an exact no-op. -/
theorem prev_song_nil (R : Resolver) (s : AppState) (h : s.history = []) :
    action_prev_song R s = (s, []) := by
  simp [action_prev_song, h]

/-- Rewind on a non-empty history: the history tail becomes current, the
old current song (if any) returns to the queue head, and the popped song
is played. -/
theorem prev_song_concat (R : Resolver) (s : AppState) (pre : List Item)
    (p : Item) (hp : s.history = pre ++ [p]) :
    (action_prev_song R s).1.current_song_data = some p ∧
    (action_prev_song R s).1.history = pre ∧
    (action_prev_song R s).1.queue = s.current_song_data.toList ++ s.queue ∧
    (action_prev_song R s).1.is_playing = s.is_playing ∧
    (action_prev_song R s).1.is_paused = s.is_paused ∧
    (∀ u, R p.id = Except.ok u →
      (action_prev_song R s).2 = [PlayerCmd.play u]) := by
  have hl : s.history.getLast? = some p := by
    rw [hp]; exact List.getLast?_concat pre
  have hd : s.history.dropLast = pre := by
    rw [hp]; exact List.dropLast_concat
  cases hc : s.current_song_data with
  | none =>
    cases hr : R p.id <;>
      simp [action_prev_song, play_selected_item, hl, hd, hc, hr]
  | some c =>
    cases hr : R p.id <;>
      simp [action_prev_song, play_selected_item, hl, hd, hc, hr]

/-! ### Helper lemmas for the songs-only invariant -/

/-- `play_selected_item` keeps the songs-only invariant when the record
it is handed is a song whenever the type string says "song". -/
theorem all_songs_play_selected (R : Resolver) (s : AppState)
    (iid ty : String) (d : Option Item) (h : AllSongs s)
    (hd : ty = "song" → ∀ x, d = some x → x.kind = "song") :
    AllSongs (play_selected_item R s iid ty d).1 := by
  unfold play_selected_item
  by_cases hty : ty = "song"
  · cases hr : R iid <;>
      simp only [hty, if_pos rfl, hr] <;>
      exact ⟨h.1, h.2.1, fun c hc => hd hty c hc⟩
  · simp only [if_neg hty]
    exact h

/-- The history after an advance still holds only songs. -/
theorem all_songs_next_history (R : Resolver) (s : AppState)
    (h : AllSongs s) :
    ∀ x ∈ (action_next_song R s).1.history, x.kind = "song" := by
  intro x hx
  rw [(next_song_fields R s).1] at hx
  rcases List.mem_append.1 hx with hx | hx
  · exact h.2.1 x hx
  · cases hc : s.current_song_data with
    | none => rw [hc] at hx; cases hx
    | some c =>
      rw [hc] at hx
      simp only [Option.toList_some, List.mem_singleton] at hx
      rw [hx]
      exact h.2.2 c hc

/-- Advance preserves the songs-only invariant. -/
theorem all_songs_next (R : Resolver) (s : AppState) (h : AllSongs s) :
    AllSongs (action_next_song R s).1 := by
  cases hq : s.queue with
  | nil =>
    have hn := next_song_empty_queue R s hq
    refine ⟨?_, all_songs_next_history R s h, ?_⟩
    · intro x hx
      rw [hn.2.1] at hx
      cases hx
    · intro c hc
      rw [hn.1] at hc
      cases hc
  | cons n rest =>
    have hn := next_song_cons_queue R s n rest hq
    refine ⟨?_, all_songs_next_history R s h, ?_⟩
    · intro x hx
      rw [hn.2] at hx
      exact h.1 x (hq ▸ List.mem_cons_of_mem n hx)
    · intro c hc
      rw [hn.1] at hc
      rw [← Option.some.inj hc]
      exact h.1 n (hq ▸ List.mem_cons_self n rest)

/-- Rewind preserves the songs-only invariant. -/
theorem all_songs_prev (R : Resolver) (s : AppState) (h : AllSongs s) :
    AllSongs (action_prev_song R s).1 := by
  by_cases hh : s.history = []
  · rw [prev_song_nil R s hh]
    exact h
  · have hcat := List.dropLast_concat_getLast hh
    have hprev := prev_song_concat R s s.history.dropLast
      (s.history.getLast hh) hcat.symm
    refine ⟨?_, ?_, ?_⟩
    · intro x hx
      rw [hprev.2.2.1] at hx
      rcases List.mem_append.1 hx with hx | hx
      · cases hc : s.current_song_data with
        | none => rw [hc] at hx; cases hx
        | some c =>
          rw [hc] at hx
          simp only [Option.toList_some, List.mem_singleton] at hx
          rw [hx]
          exact h.2.2 c hc
      · exact h.1 x hx
    · intro x hx
      rw [hprev.2.1] at hx
      exact h.2.1 x ((List.dropLast_sublist s.history).subset hx)
    · intro c hc
      rw [hprev.1] at hc
      rw [← Option.some.inj hc]
      exact h.2.1 _ (List.getLast_mem hh)

/-- Every ResultClick dispatch preserves the songs-only invariant. -/
theorem all_songs_click (R : Resolver) (s : AppState) (a : String)
    (it : Item) (i : Int) (h : AllSongs s) :
    AllSongs (on_result_click R s a it i).1 := by
  unfold on_result_click
  by_cases h1 : a = "play"
  · simp only [if_pos h1]
    exact all_songs_play_selected R s it.id it.kind (some it) h
      (fun hty x hx => by rw [← Option.some.inj hx]; exact hty)
  · simp only [if_neg h1]
    by_cases h2 : a = "queue"
    · simp only [if_pos h2]
      by_cases hk : it.kind = "song"
      · simp only [if_pos hk]
        refine ⟨?_, h.2.1, h.2.2⟩
        intro x hx
        rcases List.mem_append.1 hx with hx | hx
        · exact h.1 x hx
        · rw [List.mem_singleton.1 hx]
          exact hk
      · simp only [if_neg hk]
        exact h
    · simp only [if_neg h2]
      by_cases h3 : a = "play_next"
      · simp only [if_pos h3]
        by_cases hk : it.kind = "song"
        · simp only [if_pos hk]
          refine ⟨?_, h.2.1, h.2.2⟩
          intro x hx
          rcases List.mem_cons.1 hx with hx | hx
          · rw [hx]; exact hk
          · exact h.1 x hx
        · simp only [if_neg hk]
          exact h
      · simp only [if_neg h3]
        by_cases h4 : a = "remove"
        · simp only [if_pos h4]
          by_cases hi : 0 ≤ i ∧ i < (s.queue.length : Int)
          · simp only [if_pos hi]
            exact ⟨fun x hx => h.1 x (List.mem_of_mem_eraseIdx hx),
              h.2.1, h.2.2⟩
          · simp only [if_neg hi]
            exact h
        · simp only [if_neg h4]
          by_cases h5 : a = "move_up"
          · simp only [if_pos h5]
            by_cases hi : 0 < i ∧ i < (s.queue.length : Int)
            · simp only [if_pos hi]
              exact ⟨fun x hx => h.1 x (mem_of_mem_listSwap hx), h.2.1, h.2.2⟩
            · simp only [if_neg hi]
              exact h
          · simp only [if_neg h5]
            by_cases h6 : a = "move_down"
            · simp only [if_pos h6]
              by_cases hi : 0 ≤ i ∧ i < (s.queue.length : Int) - 1
              · simp only [if_pos hi]
                exact ⟨fun x hx => h.1 x (mem_of_mem_listSwap hx),
                  h.2.1, h.2.2⟩
              · simp only [if_neg hi]
                exact h
            · simp only [if_neg h6]
              exact h

/-- Every engine notification preserves the songs-only invariant. -/
theorem all_songs_notify (R : Resolver) (n : Notification) (s : AppState)
    (h : AllSongs s) : AllSongs (mpv_property_change R n s).1 := by
  cases n with
  | pause v => exact ⟨h.1, h.2.1, h.2.2⟩
  | idleActive v =>
    by_cases hv : (v && s.is_playing) = true
    · simp only [mpv_property_change, if_pos hv]
      have hn := all_songs_next R s h
      exact ⟨hn.1, hn.2.1, hn.2.2⟩
    · simp only [mpv_property_change, if_neg hv]
      exact ⟨h.1, h.2.1, h.2.2⟩
  | timePos v => cases v <;> exact ⟨h.1, h.2.1, h.2.2⟩
  | duration v => cases v <;> exact ⟨h.1, h.2.1, h.2.2⟩

/-- Every event preserves the songs-only invariant. -/
theorem all_songs_step (R : Resolver) (s : AppState) (e : Ev)
    (h : AllSongs s) : AllSongs (step R s e).1 := by
  cases e with
  | click a it i => exact all_songs_click R s a it i h
  | next => exact all_songs_next R s h
  | prev => exact all_songs_prev R s h
  | togglePause =>
    cases hb : s.is_playing <;>
      simp only [step, action_toggle_pause, hb, Bool.false_eq_true,
        if_false, if_true] <;>
      exact ⟨h.1, h.2.1, h.2.2⟩
  | stopPlayback => exact ⟨h.1, h.2.1, h.2.2⟩
  | notify n => exact all_songs_notify R n s h

/-- The startup state satisfies the songs-only invariant. -/
theorem all_songs_init : AllSongs initState := by
  refine ⟨?_, ?_, ?_⟩ <;> simp [initState]

/-- The songs-only invariant holds along every event trace. -/
theorem all_songs_run (R : Resolver) (evs : List Ev) :
    ∀ s, AllSongs s → AllSongs (run R s evs) := by
  induction evs with
  | nil => exact fun s h => h
  | cons e es ih =>
    intro s h
    exact ih _ (all_songs_step R s e h)

end TidalTui

namespace TidalTui

/-! ### The claims -/

/-- C1, counterexample: the state reached from startup by a single
successful Play command has a current track while its playback state is
Idle, refuting the claim that no reachable state has a current track
while Idle. -/
theorem C1_counterexample :
    Reachable okResolver (run okResolver initState [Ev.click "play" songA (-1)]) ∧
    (run okResolver initState [Ev.click "play" songA (-1)]).current_song_data
      = some songA ∧
    playbackState (run okResolver initState [Ev.click "play" songA (-1)])
      = PlaybackState.Idle := by
  exact ⟨⟨[Ev.click "play" songA (-1)], rfl⟩, rfl, rfl⟩

/-- C1, amended: the biconditional between a set current track and a
Playing/Paused state holds in the initial state but is not an invariant:
commands set the current track synchronously while the playback state
only mirrors asynchronous engine notifications, so reachable states
include Idle with a current track and Playing with no current track. -/
theorem C1_amended :
    CurrentInv initState ∧
    (∃ (R : Resolver) (s : AppState), Reachable R s ∧
      s.current_song_data ≠ none ∧ playbackState s = PlaybackState.Idle) ∧
    (∃ (R : Resolver) (s : AppState), Reachable R s ∧
      s.current_song_data = none ∧ playbackState s = PlaybackState.Playing) := by
  refine ⟨?_, ?_, ?_⟩
  · unfold CurrentInv
    simp [initState, playbackState]
  · refine ⟨okResolver, run okResolver initState [Ev.click "play" songA (-1)],
      ⟨[Ev.click "play" songA (-1)], rfl⟩, ?_, rfl⟩
    simp [run, step, on_result_click, play_selected_item, initState,
      okResolver, songA]
  · exact ⟨okResolver,
      run okResolver initState
        [Ev.click "play" songA (-1), Ev.notify (.idleActive false), Ev.next],
      ⟨[Ev.click "play" songA (-1), Ev.notify (.idleActive false), Ev.next],
        rfl⟩,
      rfl, rfl⟩

/-- C2, counterexample: a Play command on a song whose resolution fails
changes the current track from none to the requested song, refuting the
claim that the whole controller state is unchanged. -/
theorem C2_counterexample :
    (on_result_click failResolver initState "play" songA (-1)).1.current_song_data
      = some songA ∧
    initState.current_song_data = none ∧
    songA.kind = "song" ∧
    failResolver songA.id = Except.error "ResolutionError" := by
  exact ⟨rfl, rfl, rfl, rfl⟩

/-- C2, amended: for every Play command on a song whose resolution
fails, the queue, history and playback state are unchanged, no engine
instruction is issued (so no transition to Playing occurs), and the
error text is surfaced on the status bar; the current track, however, is
set to the requested song before resolution is attempted and stays set
on failure. -/
theorem C2_amended (R : Resolver) (s : AppState) (it : Item) (i : Int)
    (e : String) (hk : it.kind = "song") (hr : R it.id = Except.error e) :
    (on_result_click R s "play" it i).1.queue = s.queue ∧
    (on_result_click R s "play" it i).1.history = s.history ∧
    (on_result_click R s "play" it i).1.is_playing = s.is_playing ∧
    (on_result_click R s "play" it i).1.is_paused = s.is_paused ∧
    playbackState (on_result_click R s "play" it i).1 = playbackState s ∧
    (on_result_click R s "play" it i).2 = [] ∧
    (on_result_click R s "play" it i).1.current_song_data = some it ∧
    (on_result_click R s "play" it i).1.status_bar = "Error: " ++ e := by
  simp [on_result_click, play_selected_item, playbackState, hk, hr]

/-- C2, witness: the amended theorem applied to a failing Play on the
initial state. -/
theorem C2_witness :
    (on_result_click failResolver initState "play" songA (-1)).1.queue
      = initState.queue ∧
    (on_result_click failResolver initState "play" songA (-1)).1.status_bar
      = "Error: ResolutionError" := by
  have h := C2_amended failResolver initState songA (-1) "ResolutionError"
    rfl rfl
  exact ⟨h.1, h.2.2.2.2.2.2.2⟩

/-- C3, counterexample: advance on an empty queue while Playing leaves
the playback state Playing (only a stop instruction is emitted; the
state becomes Idle only when the engine reports idle), refuting the
claimed synchronous transition to Idle. -/
theorem C3_counterexample :
    s3w.queue = [] ∧
    playbackState (action_next_song okResolver s3w).1 = PlaybackState.Playing ∧
    (action_next_song okResolver s3w).1.current_song_data = none := by
  exact ⟨rfl, rfl, rfl⟩

/-- C3, amended: advance pushes the current track (if one exists) onto
the history tail; if the queue is non-empty it pops the head as the new
current track and issues a play instruction for it when resolution
succeeds (none on failure, with the error surfaced); if the queue is
empty it clears the current track and issues a stop instruction — the
playback flags themselves are unchanged, and no started-track indicator
is returned. -/
theorem C3_amended (R : Resolver) (s : AppState) :
    (action_next_song R s).1.history = s.history ++ s.current_song_data.toList ∧
    (action_next_song R s).1.is_playing = s.is_playing ∧
    (action_next_song R s).1.is_paused = s.is_paused ∧
    (match s.queue with
     | [] =>
        (action_next_song R s).1.current_song_data = none ∧
        (action_next_song R s).1.queue = [] ∧
        (action_next_song R s).2 = [PlayerCmd.stop] ∧
        (action_next_song R s).1.status_bar = "Playback stopped."
     | n :: rest =>
        (action_next_song R s).1.current_song_data = some n ∧
        (action_next_song R s).1.queue = rest ∧
        (match R n.id with
         | .ok u => (action_next_song R s).2 = [PlayerCmd.play u] ∧
                    (action_next_song R s).1.status_bar = s.status_bar
         | .error e => (action_next_song R s).2 = [] ∧
                    (action_next_song R s).1.status_bar = "Error: " ++ e)) := by
  cases hc : s.current_song_data with
  | none =>
    cases hq : s.queue with
    | nil => simp [action_next_song, action_stop_playback, hc, hq]
    | cons n rest =>
      cases hr : R n.id <;>
        simp [action_next_song, play_selected_item, hc, hq, hr]
  | some c =>
    cases hq : s.queue with
    | nil => simp [action_next_song, action_stop_playback, hc, hq]
    | cons n rest =>
      cases hr : R n.id <;>
        simp [action_next_song, play_selected_item, hc, hq, hr]

/-- C4: rewind on an empty history is an exact no-op on the whole state
with no engine instruction; rewind on a non-empty history pushes the
current track (if one exists) back to the queue head, pops the history
tail as the new current track, leaves the playback flags unchanged, and
issues a play instruction for the popped track when its resolution
succeeds. -/
theorem C4_rewind (R : Resolver) (s : AppState) :
    (s.history = [] → action_prev_song R s = (s, [])) ∧
    (∀ pre p, s.history = pre ++ [p] →
      (action_prev_song R s).1.current_song_data = some p ∧
      (action_prev_song R s).1.history = pre ∧
      (action_prev_song R s).1.queue = s.current_song_data.toList ++ s.queue ∧
      (action_prev_song R s).1.is_playing = s.is_playing ∧
      (action_prev_song R s).1.is_paused = s.is_paused ∧
      (∀ u, R p.id = Except.ok u →
        (action_prev_song R s).2 = [PlayerCmd.play u])) := by
  exact ⟨prev_song_nil R s, fun pre p hp => prev_song_concat R s pre p hp⟩

/-- C4, witness: the theorem applied to the empty-history initial state
and to a state with one played song, one current song and one queued
song. -/
theorem C4_witness :
    action_prev_song okResolver initState = (initState, []) ∧
    (action_prev_song okResolver s4w).1.current_song_data = some songA ∧
    (action_prev_song okResolver s4w).1.queue = [songB, songC] ∧
    (action_prev_song okResolver s4w).2
      = [PlayerCmd.play "http-stream-url"] := by
  have h1 := (C4_rewind okResolver initState).1 rfl
  have h2 := (C4_rewind okResolver s4w).2 [] songA rfl
  exact ⟨h1, h2.1, h2.2.2.1.trans rfl, h2.2.2.2.2.2 "http-stream-url" rfl⟩

/-- C5, counterexample: from a state with no current track and a
non-empty history, advance followed by rewind yields the last history
item as current track instead of restoring the prior (absent) current
track, although the history at the moment of the rewind was
non-empty. -/
theorem C5_counterexample :
    s5w.current_song_data = none ∧
    (action_next_song okResolver s5w).1.history = [songA] ∧
    (action_prev_song okResolver (action_next_song okResolver s5w).1).1.current_song_data
      = some songA := by
  exact ⟨rfl, rfl, rfl⟩

/-- C5, amended: advance followed immediately by rewind restores the
prior current track, queue and history whenever a current track existed
before the advance; when none existed, the rewind is a no-op if the
history at that moment is empty, and otherwise restores the prior queue
while making the most recent prior history item current and dropping it
from the history. -/
theorem C5_roundtrip (R : Resolver) (s : AppState) :
    ((action_next_song R s).1.history = [] →
      action_prev_song R (action_next_song R s).1
        = ((action_next_song R s).1, [])) ∧
    (∀ c, s.current_song_data = some c →
      (action_prev_song R (action_next_song R s).1).1.current_song_data
          = s.current_song_data ∧
      (action_prev_song R (action_next_song R s).1).1.queue = s.queue ∧
      (action_prev_song R (action_next_song R s).1).1.history = s.history) ∧
    (s.current_song_data = none → s.history ≠ [] →
      (action_prev_song R (action_next_song R s).1).1.queue = s.queue ∧
      (action_prev_song R (action_next_song R s).1).1.current_song_data
          = s.history.getLast? ∧
      (action_prev_song R (action_next_song R s).1).1.history
          = s.history.dropLast) := by
  refine ⟨?_, ?_, ?_⟩
  · intro h
    exact prev_song_nil R _ h
  · intro c hc
    have hf := next_song_fields R s
    have hp : (action_next_song R s).1.history = s.history ++ [c] := by
      rw [hf.1, hc]; rfl
    have hprev := prev_song_concat R (action_next_song R s).1 s.history c hp
    refine ⟨hprev.1.trans hc.symm, ?_, hprev.2.1⟩
    cases hq : s.queue with
    | nil =>
      have hn := next_song_empty_queue R s hq
      rw [hprev.2.2.1, hn.1, hn.2.1]
      rfl
    | cons n rest =>
      have hn := next_song_cons_queue R s n rest hq
      rw [hprev.2.2.1, hn.1, hn.2]
      rfl
  · intro hc h2
    have hf := next_song_fields R s
    have hp : (action_next_song R s).1.history
        = s.history.dropLast ++ [s.history.getLast h2] := by
      rw [hf.1, hc]
      simpa using (List.dropLast_concat_getLast h2).symm
    have hprev := prev_song_concat R (action_next_song R s).1
      s.history.dropLast (s.history.getLast h2) hp
    refine ⟨?_, ?_, hprev.2.1⟩
    · cases hq : s.queue with
      | nil =>
        have hn := next_song_empty_queue R s hq
        rw [hprev.2.2.1, hn.1, hn.2.1]
        rfl
      | cons n rest =>
        have hn := next_song_cons_queue R s n rest hq
        rw [hprev.2.2.1, hn.1, hn.2]
        rfl
    · rw [hprev.1, List.getLast?_eq_getLast s.history h2]

/-- C5, witness: the round-trip theorem applied to the initial state
(empty history at rewind), to a state with a current song (full
restoration), and to a state with history but no current song. -/
theorem C5_witness :
    action_prev_song okResolver (action_next_song okResolver initState).1
      = ((action_next_song okResolver initState).1, []) ∧
    (action_prev_song okResolver (action_next_song okResolver s4w).1).1.current_song_data
      = s4w.current_song_data ∧
    (action_prev_song okResolver (action_next_song okResolver s4w).1).1.queue
      = s4w.queue ∧
    (action_prev_song okResolver (action_next_song okResolver s5w).1).1.current_song_data
      = s5w.history.getLast? := by
  refine ⟨(C5_roundtrip okResolver initState).1 rfl, ?_, ?_, ?_⟩
  · exact ((C5_roundtrip okResolver s4w).2.1 songB rfl).1
  · exact ((C5_roundtrip okResolver s4w).2.1 songB rfl).2.1
  · exact ((C5_roundtrip okResolver s5w).2.2 rfl (by decide)).2.1

/-- C6: for an in-range index, Remove deletes exactly the element at
that position (the queue becomes take i ++ drop i+1, one element
shorter) and touches nothing else; for every out-of-range index,
including negative ones, Remove is an exact no-op — the embedding is a
total function, so no out-of-bounds fault occurs. -/
theorem C6_removeAt (R : Resolver) (s : AppState) (it : Item) (i : Int) :
    (0 ≤ i ∧ i < (s.queue.length : Int) →
      (on_result_click R s "remove" it i).1.queue
          = s.queue.take i.toNat ++ s.queue.drop (i.toNat + 1) ∧
      (on_result_click R s "remove" it i).1.queue.length
          = s.queue.length - 1 ∧
      (on_result_click R s "remove" it i).1.history = s.history ∧
      (on_result_click R s "remove" it i).1.current_song_data
          = s.current_song_data ∧
      (on_result_click R s "remove" it i).1.is_playing = s.is_playing ∧
      (on_result_click R s "remove" it i).1.is_paused = s.is_paused ∧
      (on_result_click R s "remove" it i).1.status_bar = s.status_bar ∧
      (on_result_click R s "remove" it i).2 = []) ∧
    (¬ (0 ≤ i ∧ i < (s.queue.length : Int)) →
      on_result_click R s "remove" it i = (s, [])) := by
  constructor
  · intro h
    have hlt : i.toNat < s.queue.length := by omega
    simp only [on_result_click, String.reduceEq, reduceIte, if_pos h]
    refine ⟨List.eraseIdx_eq_take_drop_succ _ _,
      List.length_eraseIdx_of_lt hlt, ?_⟩
    trivial
  · intro h
    simp only [on_result_click, String.reduceEq, reduceIte, if_neg h]

/-- C6, witness: the theorem applied to a three-element queue at the
in-range index 1 and the out-of-range index 5. -/
theorem C6_witness :
    (on_result_click okResolver s6w "remove" songA 1).1.queue
      = [songA, songC] ∧
    on_result_click okResolver s6w "remove" songA 5 = (s6w, []) := by
  have h1 := C6_removeAt okResolver s6w songA 1
  have h5 := C6_removeAt okResolver s6w songA 5
  exact ⟨((h1.1 (by decide)).1).trans rfl, h5.2 (by decide)⟩

/-- C7: for an interior index, MoveUp swaps the queue entry at i with
the one at i-1 and MoveDown swaps the entry at i with the one at i+1,
fixing every other position, the length and the rest of the state; the
boundary indices (0 for MoveUp, the last index for MoveDown) and every
out-of-range index are exact no-ops. -/
theorem C7_move (R : Resolver) (s : AppState) (it : Item) (i : Int) :
    (0 < i ∧ i < (s.queue.length : Int) →
      (on_result_click R s "move_up" it i).1.queue[i.toNat - 1]?
          = s.queue[i.toNat]? ∧
      (on_result_click R s "move_up" it i).1.queue[i.toNat]?
          = s.queue[i.toNat - 1]? ∧
      (∀ j : Nat, j ≠ i.toNat → j ≠ i.toNat - 1 →
        (on_result_click R s "move_up" it i).1.queue[j]? = s.queue[j]?) ∧
      (on_result_click R s "move_up" it i).1.queue.length
          = s.queue.length ∧
      (on_result_click R s "move_up" it i).1.history = s.history ∧
      (on_result_click R s "move_up" it i).1.current_song_data
          = s.current_song_data ∧
      (on_result_click R s "move_up" it i).1.is_playing = s.is_playing ∧
      (on_result_click R s "move_up" it i).1.is_paused = s.is_paused ∧
      (on_result_click R s "move_up" it i).2 = []) ∧
    (¬ (0 < i ∧ i < (s.queue.length : Int)) →
      on_result_click R s "move_up" it i = (s, [])) ∧
    (0 ≤ i ∧ i < (s.queue.length : Int) - 1 →
      (on_result_click R s "move_down" it i).1.queue[i.toNat + 1]?
          = s.queue[i.toNat]? ∧
      (on_result_click R s "move_down" it i).1.queue[i.toNat]?
          = s.queue[i.toNat + 1]? ∧
      (∀ j : Nat, j ≠ i.toNat → j ≠ i.toNat + 1 →
        (on_result_click R s "move_down" it i).1.queue[j]? = s.queue[j]?) ∧
      (on_result_click R s "move_down" it i).1.queue.length
          = s.queue.length ∧
      (on_result_click R s "move_down" it i).1.history = s.history ∧
      (on_result_click R s "move_down" it i).1.current_song_data
          = s.current_song_data ∧
      (on_result_click R s "move_down" it i).1.is_playing = s.is_playing ∧
      (on_result_click R s "move_down" it i).1.is_paused = s.is_paused ∧
      (on_result_click R s "move_down" it i).2 = []) ∧
    (¬ (0 ≤ i ∧ i < (s.queue.length : Int) - 1) →
      on_result_click R s "move_down" it i = (s, [])) := by
  refine ⟨?_, ?_, ?_, ?_⟩
  · intro h
    have hi : i.toNat < s.queue.length := by omega
    have hi1 : i.toNat - 1 < s.queue.length := by omega
    have hne : i.toNat - 1 ≠ i.toNat := by omega
    simp only [on_result_click, String.reduceEq, reduceIte, if_pos h]
    refine ⟨?_, ?_, ?_, listSwap_length _ _ _, ?_⟩
    · rw [listSwap_getElem? _ _ _ _ hi hi1, if_pos rfl]
    · rw [listSwap_getElem? _ _ _ _ hi hi1, if_neg hne.symm, if_pos rfl]
    · intro j hj1 hj2
      rw [listSwap_getElem? _ _ _ _ hi hi1, if_neg hj2, if_neg hj1]
    · trivial
  · intro h
    simp only [on_result_click, String.reduceEq, reduceIte, if_neg h]
  · intro h
    have hi : i.toNat < s.queue.length := by omega
    have hi1 : i.toNat + 1 < s.queue.length := by omega
    have hne : i.toNat + 1 ≠ i.toNat := by omega
    simp only [on_result_click, String.reduceEq, reduceIte, if_pos h]
    refine ⟨?_, ?_, ?_, listSwap_length _ _ _, ?_⟩
    · rw [listSwap_getElem? _ _ _ _ hi hi1, if_pos rfl]
    · rw [listSwap_getElem? _ _ _ _ hi hi1, if_neg hne.symm, if_pos rfl]
    · intro j hj1 hj2
      rw [listSwap_getElem? _ _ _ _ hi hi1, if_neg hj2, if_neg hj1]
    · trivial
  · intro h
    simp only [on_result_click, String.reduceEq, reduceIte, if_neg h]

/-- C7, witness: the theorem applied to a three-element queue at an
interior index, at the two boundary indices, and below the lower
boundary. -/
theorem C7_witness :
    (on_result_click okResolver s6w "move_up" songA 1).1.queue[0]?
      = s6w.queue[1]? ∧
    (on_result_click okResolver s6w "move_up" songA 1).1.queue[1]?
      = s6w.queue[0]? ∧
    on_result_click okResolver s6w "move_up" songA 0 = (s6w, []) ∧
    (on_result_click okResolver s6w "move_down" songA 0).1.queue[1]?
      = s6w.queue[0]? ∧
    on_result_click okResolver s6w "move_down" songA 2 = (s6w, []) := by
  have h1 := C7_move okResolver s6w songA 1
  have h0 := C7_move okResolver s6w songA 0
  have h2 := C7_move okResolver s6w songA 2
  exact ⟨(h1.1 (by decide)).1, (h1.1 (by decide)).2.1,
    h0.2.1 (by decide), (h0.2.2.1 (by decide)).1, h2.2.2.2 (by decide)⟩

/-- C8: an idle-active notification reporting true while the local
was-playing flag is true produces exactly the effect of the advance
operation (followed by the flag overwrite and status recomputation);
idle-active true with the flag false, idle-active false, and every
pause, time-pos and duration notification leave queue, history and
current track unchanged and emit no engine command — advance is never
triggered by them. -/
theorem C8_auto_advance (R : Resolver) (s : AppState) :
    (s.is_playing = true →
      mpv_property_change R (Notification.idleActive true) s
        = (update_playback_status
            { (action_next_song R s).1 with is_playing := false },
           (action_next_song R s).2)) ∧
    (s.is_playing = false →
      NoAutoAdvance R (Notification.idleActive true) s) ∧
    NoAutoAdvance R (Notification.idleActive false) s ∧
    (∀ v, NoAutoAdvance R (Notification.pause v) s) ∧
    (∀ v, NoAutoAdvance R (Notification.timePos v) s) ∧
    (∀ v, NoAutoAdvance R (Notification.duration v) s) := by
  refine ⟨?_, ?_, ?_, ?_, ?_, ?_⟩
  · intro h
    simp [mpv_property_change, h]
  · intro h
    simp [NoAutoAdvance, mpv_property_change, update_playback_status, h]
  · simp [NoAutoAdvance, mpv_property_change, update_playback_status]
  · intro v
    simp [NoAutoAdvance, mpv_property_change, update_playback_status]
  · intro v
    cases v <;>
      simp [NoAutoAdvance, mpv_property_change, update_playback_status]
  · intro v
    cases v <;>
      simp [NoAutoAdvance, mpv_property_change, update_playback_status]

/-- C8, witness: the theorem applied to a Playing state with a queued
song (advance fires) and to the idle initial state (no advance). -/
theorem C8_witness :
    mpv_property_change okResolver (Notification.idleActive true) s8w
      = (update_playback_status
          { (action_next_song okResolver s8w).1 with is_playing := false },
         (action_next_song okResolver s8w).2) ∧
    NoAutoAdvance okResolver (Notification.idleActive true) initState ∧
    NoAutoAdvance okResolver (Notification.pause true) s8w := by
  exact ⟨(C8_auto_advance okResolver s8w).1 rfl,
    (C8_auto_advance okResolver initState).2.1 rfl,
    (C8_auto_advance okResolver s8w).2.2.2.1 true⟩

/-- C9, counterexample: the notification callback mutates controller
state directly in the engine thread — a pause notification assigns
is_paused and an idle-active notification assigns is_playing without
any call_from_thread hand-off — refuting the claim that the callback
performs no direct unsynchronized mutation. -/
theorem C9_counterexample :
    callback_direct_writes (Notification.pause true) initState
      = { initState with is_paused := true } ∧
    initState.is_paused = false ∧
    callback_direct_writes (Notification.idleActive false) initState
      = { initState with is_playing := true } ∧
    initState.is_playing = false := by
  exact ⟨rfl, rfl, rfl, rfl⟩

/-- C9, amended: the time-pos and duration updates, the automatic
advance and the status recomputation are marshalled into the controller
thread (the status recomputation after every notification), while the
direct writes the callback performs in the engine thread touch only the
is_paused and is_playing flags: queue, history, current track, status
bar and progress are never mutated directly, and time-pos and duration
notifications perform no direct write at all. -/
theorem C9_direct_writes_only_flags (n : Notification) (s : AppState) :
    (callback_direct_writes n s).queue = s.queue ∧
    (callback_direct_writes n s).history = s.history ∧
    (callback_direct_writes n s).current_song_data = s.current_song_data ∧
    (callback_direct_writes n s).status_bar = s.status_bar ∧
    (callback_direct_writes n s).progress = s.progress ∧
    (callback_direct_writes n s).duration = s.duration ∧
    (∀ v, callback_direct_writes (Notification.timePos v) s = s) ∧
    (∀ v, callback_direct_writes (Notification.duration v) s = s) ∧
    CtrlCall.update_status ∈ callback_marshaled_calls n s := by
  cases n <;>
    simp [callback_direct_writes, callback_marshaled_calls]

/-- C10: an Enqueue or PlayNext intent on a non-song record is an exact
no-op, and consequently every element of the queue of every reachable
state is a song record. -/
theorem C10_songs_only (R : Resolver) :
    (∀ (s : AppState) (it : Item) (i : Int), it.kind ≠ "song" →
      on_result_click R s "queue" it i = (s, []) ∧
      on_result_click R s "play_next" it i = (s, [])) ∧
    (∀ s, Reachable R s → ∀ x ∈ s.queue, x.kind = "song") := by
  constructor
  · intro s it i hk
    constructor <;> simp [on_result_click, String.reduceEq, reduceIte, hk]
  · rintro s ⟨evs, rfl⟩
    exact (all_songs_run R evs initState all_songs_init).1

/-- C10, witness: the theorem applied to an enqueue of a playlist record
on the initial state, and to the queue reached by enqueueing two
songs. -/
theorem C10_witness :
    on_result_click okResolver initState "queue" playlistP (-1)
      = (initState, []) ∧
    (∀ x ∈ (run okResolver initState
        [Ev.click "queue" songA (-1), Ev.click "play_next" songB (-1)]).queue,
      x.kind = "song") := by
  refine ⟨((C10_songs_only okResolver).1 initState playlistP (-1)
    (by decide)).1, ?_⟩
  exact (C10_songs_only okResolver).2 _ ⟨_, rfl⟩

end TidalTui
